import Mathlib

/-
Shallow embedding of the `querier` Go package (src/querybuilder.go): a small
SQL query-construction layer that assembles parameterized statement text and a
positional argument list from composable functional options.

Modelling conventions:
- Go strings are Lean `String`s (the inputs in this repo are ASCII, so the
  byte/char distinction is immaterial).
- `any` parameter values are modelled by the inductive `Val` (the repo's tests
  only ever pass ints and strings).
- A `QueryBuilderOption` (Go: `func(query *Query)`, mutating) is modelled as a
  pure state transformer `Query → Query`.
- `strings.Replace(s, old, new, n)` is modelled by `goReplace` below: it
  replaces the first `n` non-overlapping occurrences of `old` in `s`,
  scanning left to right.  (Go's special behaviour for `old = ""` — inserting
  `new` between characters — is never reachable in this package, since `old`
  is always `table ++ "."`, which is nonempty; the model leaves the string
  unchanged in that case.)
-/

namespace Querier

/-- Values passed as query parameters (Go `any`). -/
inductive Val where
  | i : Int → Val
  | s : String → Val
deriving DecidableEq, Repr

abbrev DBTable := String
abbrev DBField := String
abbrev QueryOperation := String
abbrev JoinType := String
abbrev OrderByType := String
abbrev DBOperation := String

def Count : DBField := "COUNT(*)"

def Insert : QueryOperation := "INSERT INTO"
def Select : QueryOperation := "SELECT"
def Update : QueryOperation := "UPDATE"
def Delete : QueryOperation := "DELETE"

def InnerJoin : JoinType := "INNER"
def LeftJoin : JoinType := "LEFT"
def RightJoin : JoinType := "RIGHT"
def CrossJoin : JoinType := "CROSS"
def FullJoin : JoinType := "FULL"

def Desc : OrderByType := "DESC"
def ASC : OrderByType := "ASC"

def NotEqual : DBOperation := "NOT EQUAL"
def Equal : DBOperation := "="
def LessOrEqual : DBOperation := "<="
def LessThan : DBOperation := "<"
def GreaterOrEqual : DBOperation := ">="
def GreaterThan : DBOperation := ">"
def NotInt : DBOperation := "NOT IN"
def In : DBOperation := "IN"
def Like : DBOperation := "LIKE"

/-- The accumulator (Go struct `Query`).  Defaults model Go's zero value
(`&Query{}`): empty table name, nil slices. -/
structure Query where
  Table : DBTable := ""
  fields : List DBField := []
  where_ : List String := []
  params : List Val := []
  join : List String := []
  aggregations : List String := []
  aggregationParams : List Val := []
  sets : List String := []
  setParams : List Val := []
deriving DecidableEq, Repr

abbrev QueryBuilderOption := Query → Query

/-- Join a list of strings with a separator between the elements (the common
Go loop shape `res += w; if i != len-1 { res += sep }`). -/
def joinSep (sep : String) : List String → String
  | [] => ""
  | [x] => x
  | x :: xs => x ++ sep ++ joinSep sep xs

/-- One step list of `replaceFuel`: Go `strings.Replace` scanning.  `fuel`
only bounds recursion depth (one unit per character examined); it is set to
the source length, which suffices since every step consumes at least one
character. -/
def replaceFuel (fuel : Nat) (s old new : List Char) (n : Nat) : List Char :=
  match fuel with
  | 0 => s
  | fuel + 1 =>
    match n, s with
    | 0, s => s
    | _ + 1, [] => []
    | n + 1, c :: rest =>
      if old.isPrefixOf (c :: rest) && !old.isEmpty then
        new ++ replaceFuel fuel ((c :: rest).drop old.length) old new n
      else
        c :: replaceFuel fuel rest old new (n + 1)

/-- Go `strings.Replace(s, old, new, n)`: replace the first `n`
non-overlapping occurrences of `old` in `s` by `new` (see the file comment
for the unreachable `old = ""` case). -/
def goReplace (s old new : String) (n : Nat) : String :=
  ⟨replaceFuel s.data.length s.data old.data new.data n⟩

/-- Go method `(q Query).buildWhere(field, operation, params)`: renders one predicate
fragment and appends the values to `q.params`.  Returns the updated
accumulator together with the fragment (the Go method mutates `q` and returns
the string). -/
def buildWhere (q : Query) (field : DBField) (operation : DBOperation)
    (params : List Val) : Query × String :=
  match params with
  | [] => (q, field ++ " " ++ operation)
  | [p] => ({ q with params := q.params ++ [p] }, field ++ " " ++ operation ++ " ?")
  | ps => ({ q with params := q.params ++ ps },
           field ++ " " ++ operation ++ " (" ++ joinSep "," (ps.map fun _ => "?") ++ ")")

/-- Apply a list of options left to right (the `for _, opt := range opts`
loop of every terminal builder, and of `And`/`Or`). -/
def applyOpts (opts : List QueryBuilderOption) (q : Query) : Query :=
  opts.foldl (fun q opt => opt q) q

def Where (field : DBField) (operation : DBOperation) (params : List Val) :
    QueryBuilderOption := fun q =>
  let r := buildWhere q field operation params
  { r.1 with where_ := r.1.where_ ++ [r.2] }

def And (opts : List QueryBuilderOption) : QueryBuilderOption := fun q =>
  applyOpts opts q

def Or (opts : List QueryBuilderOption) : QueryBuilderOption := fun q =>
  let temp := applyOpts opts {}
  { q with where_ := q.where_ ++ [joinSep " OR " temp.where_],
           params := q.params ++ temp.params }

def Set (field : DBField) (value : Val) : QueryBuilderOption := fun q =>
  { q with sets := q.sets ++ [field], setParams := q.setParams ++ [value] }

def Raw (query : String) (params : List Val) : QueryBuilderOption := fun q =>
  { q with aggregations := q.aggregations ++ [query],
           aggregationParams := q.aggregationParams ++ params }

def RawWhere (query : String) (params : List Val) : QueryBuilderOption := fun q =>
  { q with where_ := q.where_ ++ [query], params := q.params ++ params }

def Join (table : DBTable) (joinType : JoinType) (on_ equal : DBField) :
    QueryBuilderOption := fun query =>
  let j := " " ++ joinType ++ " JOIN " ++ table
  let j := if on_ ≠ "" ∧ equal ≠ "" then j ++ " ON " ++ on_ ++ " = " ++ equal else j
  { query with join := query.join ++ [j] }

def Limit (limit : Int) : QueryBuilderOption := fun query =>
  { query with aggregations := query.aggregations ++ ["LIMIT ?"],
               aggregationParams := query.aggregationParams ++ [Val.i limit] }

def OrderBy (field : DBField) (order : OrderByType) : QueryBuilderOption := fun query =>
  { query with aggregations := query.aggregations ++ ["ORDER BY " ++ field ++ " " ++ order] }

def First : QueryBuilderOption := fun query =>
  { query with aggregations := query.aggregations ++ ["LIMIT 1"] }

/-- WHERE portion of a rendered statement: empty when there are no
predicate fragments, otherwise `" WHERE "` followed by the fragments joined
with `" AND "` (the shared loop of NewQuery/NewUpdate/NewDelete). -/
def whereClause (ws : List String) : String :=
  if ws = [] then "" else " WHERE " ++ joinSep " AND " ws

/-- The trailing ("aggregations") portion: empty when there are no trailing
fragments, otherwise a space followed by the fragments joined with single
spaces. -/
def aggClause (ags : List String) : String :=
  if ags = [] then "" else " " ++ joinSep " " ags

/-- The field-list loop of NewQuery: `res += " " + w; if i != last, res += ","`. -/
def renderFields : List DBField → String
  | [] => ""
  | [f] => " " ++ f
  | f :: fs => " " ++ f ++ "," ++ renderFields fs

/-- The SET loop of NewUpdate: each set field has one occurrence of
`table ++ "."` stripped (strings.Replace with n = 1), rendered as
`" field = ?"`, comma-separated. -/
def renderSets (table : DBTable) : List String → String
  | [] => ""
  | [w] => " " ++ goReplace w (table ++ ".") "" 1 ++ " = ?"
  | w :: ws => " " ++ goReplace w (table ++ ".") "" 1 ++ " = ?," ++ renderSets table ws

/-- Go `NewQuery`.  NOTE: the Go function assembles a local `resultParams`
slice (`query.params` then `query.aggregationParams`) but its return
statement is `return res, query.params` — only the predicate arguments are
returned. -/
def NewQuery (table : DBTable) (fields : List DBField)
    (opts : List QueryBuilderOption) : String × List Val :=
  let query := applyOpts opts { Table := table }
  let res := Select
      ++ (if fields = [] then " *" else "")
      ++ renderFields fields
      ++ " FROM" ++ " " ++ table
      ++ String.join query.join
      ++ whereClause query.where_
      ++ aggClause query.aggregations
  (res, query.params)

/-- Go `NewInsert`: pure field-list transform; each field has up to 11
occurrences of `table ++ "."` removed (strings.Replace with n = 11). -/
def NewInsert (table : DBTable) (fields : List DBField) : String :=
  Insert ++ " " ++ table ++ " ("
    ++ joinSep ", " (fields.map fun w => goReplace w (table ++ ".") "" 11)
    ++ ")" ++ " VALUES ("
    ++ joinSep ", " (fields.map fun _ => "?") ++ ")"

/-- Go `NewUpdate`.  Returns `resultParams`: assignment arguments, then
predicate arguments, then trailing arguments. -/
def NewUpdate (table : DBTable) (opts : List QueryBuilderOption) :
    String × List Val :=
  let query := applyOpts opts { Table := table }
  let res := Update ++ " " ++ table ++ " SET"
      ++ renderSets table query.sets
      ++ String.join query.join
      ++ whereClause query.where_
      ++ aggClause query.aggregations
  (res, query.setParams ++ query.params ++ query.aggregationParams)

/-- Go `NewDelete`.  Like NewQuery it assembles a local `resultParams` but
returns `query.params`. -/
def NewDelete (table : DBTable) (opts : List QueryBuilderOption) :
    String × List Val :=
  let query := applyOpts opts { Table := table }
  let res := Delete ++ " FROM" ++ " " ++ table
      ++ String.join query.join
      ++ whereClause query.where_
      ++ aggClause query.aggregations
  (res, query.params)

/-- Number of `?` placeholder tokens in a statement text. -/
def countQ (s : String) : Nat := s.data.count '?'

/-- A one-value predicate contributor, packaged from a (field, operator,
value) triple — the shape used by the composition claims. -/
def where1 (t : DBField × DBOperation × Val) : QueryBuilderOption :=
  Where t.1 t.2.1 [t.2.2]

/-- The fragment a one-value predicate contributor appends. -/
def frag1 (t : DBField × DBOperation × Val) : String :=
  t.1 ++ " " ++ t.2.1 ++ " ?"

/-- The argument a one-value predicate contributor appends. -/
def val1 (t : DBField × DBOperation × Val) : Val := t.2.2

/-- An assignment contributor packaged from a (field, value) pair. -/
def set1 (t : DBField × Val) : QueryBuilderOption := Set t.1 t.2

/-- Whether `pat` occurs as a contiguous sublist of `s`. -/
def occursAux (pat : List Char) : List Char → Bool
  | [] => pat.isEmpty
  | c :: rest => pat.isPrefixOf (c :: rest) || occursAux pat rest

/-- Whether `pat` occurs as a contiguous substring of `s`. -/
def occursIn (pat s : String) : Bool := occursAux pat.data s.data

theorem applyOpts_nil (q : Query) : applyOpts [] q = q := rfl

theorem applyOpts_cons (o : QueryBuilderOption) (opts : List QueryBuilderOption)
    (q : Query) : applyOpts (o :: opts) q = applyOpts opts (o q) := rfl

theorem applyOpts_append (l₁ l₂ : List QueryBuilderOption) (q : Query) :
    applyOpts (l₁ ++ l₂) q = applyOpts l₂ (applyOpts l₁ q) := by
  simp [applyOpts]

theorem where1_apply (t : DBField × DBOperation × Val) (q : Query) :
    where1 t q = { q with where_ := q.where_ ++ [frag1 t],
                          params := q.params ++ [val1 t] } := rfl

/-- Applying a list of one-value predicate contributors appends their
fragments to `where_` and their values to `params`, in call order. -/
theorem applyOpts_where1_map (ws : List (DBField × DBOperation × Val)) (q : Query) :
    applyOpts (ws.map where1) q =
      { q with where_ := q.where_ ++ ws.map frag1,
               params := q.params ++ ws.map val1 } := by
  induction ws generalizing q with
  | nil => simp [applyOpts]
  | cons t ts ih =>
    simp only [List.map_cons, applyOpts_cons, where1_apply, ih, List.append_assoc,
      List.singleton_append]

/-- Merging two adjacent literal pieces of a right-associated append chain. -/
theorem append_merge {a b c : String} (h : a ++ b = c) (x : String) :
    a ++ (b ++ x) = c ++ x := by
  rw [← String.append_assoc, h]

theorem set1_apply (t : DBField × Val) (q : Query) :
    set1 t q = { q with sets := q.sets ++ [t.1],
                        setParams := q.setParams ++ [t.2] } := rfl

/-- Applying a list of assignment contributors appends their fields to `sets`
and their values to `setParams`, in call order. -/
theorem applyOpts_set1_map (ss : List (DBField × Val)) (q : Query) :
    applyOpts (ss.map set1) q =
      { q with sets := q.sets ++ ss.map (fun t => t.1),
               setParams := q.setParams ++ ss.map (fun t => t.2) } := by
  induction ss generalizing q with
  | nil => simp [applyOpts]
  | cons t ts ih =>
    simp only [List.map_cons, applyOpts_cons, set1_apply, ih, List.append_assoc,
      List.singleton_append]

/-- The NewQuery definition with the let-bindings spelled out. -/
theorem newQuery_eq (table : DBTable) (fields : List DBField)
    (opts : List QueryBuilderOption) :
    NewQuery table fields opts =
      (Select ++ (if fields = [] then " *" else "") ++ renderFields fields
         ++ " FROM" ++ " " ++ table
         ++ String.join (applyOpts opts { Table := table }).join
         ++ whereClause (applyOpts opts { Table := table }).where_
         ++ aggClause (applyOpts opts { Table := table }).aggregations,
       (applyOpts opts { Table := table }).params) := rfl

/-- The NewUpdate definition with the let-bindings spelled out. -/
theorem newUpdate_eq (table : DBTable) (opts : List QueryBuilderOption) :
    NewUpdate table opts =
      (Update ++ " " ++ table ++ " SET"
         ++ renderSets table (applyOpts opts { Table := table }).sets
         ++ String.join (applyOpts opts { Table := table }).join
         ++ whereClause (applyOpts opts { Table := table }).where_
         ++ aggClause (applyOpts opts { Table := table }).aggregations,
       (applyOpts opts { Table := table }).setParams
         ++ (applyOpts opts { Table := table }).params
         ++ (applyOpts opts { Table := table }).aggregationParams) := rfl

/-- The NewDelete definition with the let-bindings spelled out. -/
theorem newDelete_eq (table : DBTable) (opts : List QueryBuilderOption) :
    NewDelete table opts =
      (Delete ++ " FROM" ++ " " ++ table
         ++ String.join (applyOpts opts { Table := table }).join
         ++ whereClause (applyOpts opts { Table := table }).where_
         ++ aggClause (applyOpts opts { Table := table }).aggregations,
       (applyOpts opts { Table := table }).params) := rfl

/-- The NewQuery field-list loop renders a non-empty field list as a single
leading space followed by the comma-space-joined field names. -/
theorem renderFields_cons (f : DBField) (fs : List DBField) :
    renderFields (f :: fs) = " " ++ joinSep ", " (f :: fs) := by
  induction fs generalizing f with
  | nil => rfl
  | cons g gs ih =>
    show " " ++ f ++ "," ++ renderFields (g :: gs) = _
    rw [ih g]
    simp only [joinSep, String.append_assoc]
    rw [append_merge (show ("," : String) ++ " " = ", " from rfl)]

/-- C7: And(opts...) applied to any accumulator state equals applying the
nested contributors inline in order, and every terminal builder returns the
same (text, arguments) pair with `And opts` in place of the inlined list. -/
theorem c7_and_inlines_contributors :
    (∀ (opts : List QueryBuilderOption) (q : Query), And opts q = applyOpts opts q) ∧
    (∀ (table : DBTable) (fields : List DBField)
        (pre opts post : List QueryBuilderOption),
      NewQuery table fields (pre ++ And opts :: post) =
        NewQuery table fields (pre ++ (opts ++ post)) ∧
      NewUpdate table (pre ++ And opts :: post) =
        NewUpdate table (pre ++ (opts ++ post)) ∧
      NewDelete table (pre ++ And opts :: post) =
        NewDelete table (pre ++ (opts ++ post))) := by
  have key : ∀ (pre opts post : List QueryBuilderOption) (q : Query),
      applyOpts (pre ++ And opts :: post) q = applyOpts (pre ++ (opts ++ post)) q := by
    intro pre opts post q
    simp [applyOpts_append, applyOpts_cons, And]
  refine ⟨fun opts q => rfl, fun table fields pre opts post => ⟨?_, ?_, ?_⟩⟩
  · simp only [NewQuery, key]
  · simp only [NewUpdate, key]
  · simp only [NewDelete, key]

/-- C3: a Where contributor with zero values appends `field operation` and no
argument; with one value it appends `field operation ?` and that value; with
more than one value it appends `field operation (?,…,?)` with one `?` per
value, comma-separated, and the values in call order. -/
theorem c3_where_fragment_shapes (f : DBField) (op : DBOperation) (q : Query) :
    (Where f op [] q = { q with where_ := q.where_ ++ [f ++ " " ++ op] }) ∧
    (∀ v, Where f op [v] q =
      { q with where_ := q.where_ ++ [f ++ " " ++ op ++ " ?"],
               params := q.params ++ [v] }) ∧
    (∀ vs, 1 < vs.length → Where f op vs q =
      { q with
          where_ := q.where_ ++
            [f ++ " " ++ op ++ " (" ++ joinSep "," (vs.map fun _ => "?") ++ ")"],
          params := q.params ++ vs }) := by
  refine ⟨rfl, fun v => rfl, fun vs h => ?_⟩
  match vs, h with
  | v₁ :: v₂ :: rest, _ => rfl

/-- Witness for C3 at the repo's own IN example: three values yield
`users.id IN (?,?,?)` with the three values appended in order. -/
theorem c3_where_fragment_shapes_witness :
    Where "users.id" In [Val.i 1, Val.i 2, Val.i 3] {} =
      { Table := "", fields := [], where_ := ["users.id IN (?,?,?)"],
        params := [Val.i 1, Val.i 2, Val.i 3], join := [], aggregations := [],
        aggregationParams := [], sets := [], setParams := [] } := by
  have h := (c3_where_fragment_shapes "users.id" In {}).2.2
    [Val.i 1, Val.i 2, Val.i 3] (by decide)
  exact h.trans (by decide)

/-- C10: the not-equal operator renders as the literal token `NOT EQUAL`
(so the fragment is `f NOT EQUAL ?`), while every other comparison operator
constant is its SQL symbol. -/
theorem c10_notequal_renders_literal_token :
    (∀ (f : DBField) (v : Val) (q : Query),
      Where f NotEqual [v] q =
        { q with where_ := q.where_ ++ [f ++ " NOT EQUAL ?"],
                 params := q.params ++ [v] }) ∧
    NotEqual = "NOT EQUAL" ∧ Equal = "=" ∧ LessOrEqual = "<=" ∧ LessThan = "<" ∧
    GreaterOrEqual = ">=" ∧ GreaterThan = ">" ∧ NotInt = "NOT IN" ∧ In = "IN" ∧
    Like = "LIKE" := by
  refine ⟨fun f v q => ?_, rfl, rfl, rfl, rfl, rfl, rfl, rfl, rfl, rfl⟩
  have base : Where f NotEqual [v] q =
      { q with where_ := q.where_ ++ [f ++ " " ++ NotEqual ++ " ?"],
               params := q.params ++ [v] } := rfl
  have merged : f ++ " " ++ NotEqual ++ " ?" = f ++ " NOT EQUAL ?" := by
    simp only [String.append_assoc]
    rfl
  rw [base, merged]

/-- C9: Or with zero nested contributors appends exactly one empty predicate
fragment and no arguments; rendered next to another predicate this leaves a
dangling ` AND `, and alone it renders `WHERE ` followed by nothing. -/
theorem c9_or_empty_appends_empty_fragment :
    (∀ q : Query, Or [] q = { q with where_ := q.where_ ++ [""] }) ∧
    NewQuery "users" [] [Where "users.id" Equal [Val.i 1], Or []] =
      ("SELECT * FROM users WHERE users.id = ? AND ", [Val.i 1]) ∧
    NewQuery "users" [] [Or []] = ("SELECT * FROM users WHERE ", []) := by
  refine ⟨fun q => ?_, by decide, by decide⟩
  simp [Or, applyOpts, joinSep]

/-- C8: Or modifies only the enclosing accumulator's predicate fragments and
predicate arguments; joins, assignments, and trailing fragments contributed
inside the Or go to the discarded temporary accumulator, as the concrete
query with a nested Join and Limit shows. -/
theorem c8_or_frame_only_where_and_params :
    (∀ (opts : List QueryBuilderOption) (q : Query),
      (Or opts q).Table = q.Table ∧
      (Or opts q).fields = q.fields ∧
      (Or opts q).join = q.join ∧
      (Or opts q).aggregations = q.aggregations ∧
      (Or opts q).aggregationParams = q.aggregationParams ∧
      (Or opts q).sets = q.sets ∧
      (Or opts q).setParams = q.setParams ∧
      (Or opts q).where_ = q.where_ ++ [joinSep " OR " (applyOpts opts {}).where_] ∧
      (Or opts q).params = q.params ++ (applyOpts opts {}).params) ∧
    NewQuery "users" [] [Or [Join "products" InnerJoin "" "", Limit 5]] =
      ("SELECT * FROM users WHERE ", []) := by
  exact ⟨fun opts q => ⟨rfl, rfl, rfl, rfl, rfl, rfl, rfl, rfl, rfl⟩, by decide⟩

/-- C2: Or applies its nested contributors to a fresh accumulator, appends to
the enclosing predicate fragments one single fragment equal to the nested
fragments joined by ` OR ` with no surrounding parentheses, and appends the
isolated accumulator's arguments after the enclosing predicate arguments;
for an outer sequence of one-value predicates around a nested disjunction
the returned arguments follow contributor call order, as the concrete query
also shows. -/
theorem c2_or_isolation_and_argument_order :
    (∀ (opts : List QueryBuilderOption) (q : Query),
      Or opts q =
        { q with
            where_ := q.where_ ++ [joinSep " OR " (applyOpts opts {}).where_],
            params := q.params ++ (applyOpts opts {}).params }) ∧
    (∀ (table : DBTable) (fields : List DBField)
        (ws₁ inner ws₂ : List (DBField × DBOperation × Val)),
      (NewQuery table fields
          (ws₁.map where1 ++ Or (inner.map where1) :: ws₂.map where1)).2 =
        ws₁.map val1 ++ inner.map val1 ++ ws₂.map val1 ∧
      (applyOpts (ws₁.map where1 ++ Or (inner.map where1) :: ws₂.map where1)
          { Table := table }).where_ =
        ws₁.map frag1 ++ joinSep " OR " (inner.map frag1) :: ws₂.map frag1) ∧
    NewQuery "users" []
        [where1 ("a", Equal, Val.i 1),
         Or [where1 ("b", Equal, Val.i 2), where1 ("c", Equal, Val.i 3)],
         where1 ("d", Equal, Val.i 4)] =
      ("SELECT * FROM users WHERE a = ? AND b = ? OR c = ? AND d = ?",
       [Val.i 1, Val.i 2, Val.i 3, Val.i 4]) := by
  have hstate : ∀ (table : DBTable) (ws₁ inner ws₂ : List (DBField × DBOperation × Val)),
      applyOpts (ws₁.map where1 ++ Or (inner.map where1) :: ws₂.map where1)
          { Table := table } =
        { Table := table,
          where_ := ws₁.map frag1 ++ joinSep " OR " (inner.map frag1) :: ws₂.map frag1,
          params := ws₁.map val1 ++ inner.map val1 ++ ws₂.map val1 } := by
    intro table ws₁ inner ws₂
    rw [applyOpts_append, applyOpts_cons]
    simp only [applyOpts_where1_map, Or, List.append_assoc, List.nil_append,
      List.append_nil, List.singleton_append]
  refine ⟨fun opts q => rfl, fun table fields ws₁ inner ws₂ => ⟨?_, ?_⟩, by decide⟩
  · rw [newQuery_eq, hstate]
  · rw [hstate]

/-- C6: retrieval rendering — an empty field list renders `SELECT * FROM
entity`; a non-empty one renders the comma-space-joined field names in
order; clause order is field list, FROM entity, join fragments in append
order, a WHERE clause with ` AND `-joined predicate fragments when any
exist, then trailing fragments joined by single spaces. -/
theorem c6_newquery_clause_order :
    (∀ (table : DBTable) (opts : List QueryBuilderOption),
      (NewQuery table [] opts).1 =
        "SELECT * FROM " ++ table
          ++ String.join (applyOpts opts { Table := table }).join
          ++ whereClause (applyOpts opts { Table := table }).where_
          ++ aggClause (applyOpts opts { Table := table }).aggregations) ∧
    (∀ (table : DBTable) (f : DBField) (fs : List DBField)
        (opts : List QueryBuilderOption),
      (NewQuery table (f :: fs) opts).1 =
        "SELECT " ++ joinSep ", " (f :: fs) ++ (" FROM " ++ (table
          ++ (String.join (applyOpts opts { Table := table }).join
          ++ (whereClause (applyOpts opts { Table := table }).where_
          ++ aggClause (applyOpts opts { Table := table }).aggregations))))) ∧
    whereClause [] = "" ∧
    (∀ w ws, whereClause (w :: ws) = " WHERE " ++ joinSep " AND " (w :: ws)) ∧
    aggClause [] = "" ∧
    (∀ a as, aggClause (a :: as) = " " ++ joinSep " " (a :: as)) := by
  refine ⟨fun table opts => rfl, fun table f fs opts => ?_,
    rfl, fun w ws => rfl, rfl, fun a as => rfl⟩
  have h1 : (NewQuery table (f :: fs) opts).1 =
      Select ++ "" ++ renderFields (f :: fs) ++ " FROM" ++ " " ++ table
        ++ String.join (applyOpts opts { Table := table }).join
        ++ whereClause (applyOpts opts { Table := table }).where_
        ++ aggClause (applyOpts opts { Table := table }).aggregations := rfl
  rw [h1, renderFields_cons]
  simp only [String.append_assoc]
  rw [append_merge (show Select ++ "" = "SELECT" from rfl)]
  rw [append_merge (show ("SELECT" : String) ++ " " = "SELECT " from rfl)]
  rw [append_merge (show (" FROM" : String) ++ " " = " FROM " from rfl)]

/-- C4: mutation rendering — `UPDATE entity SET` then the assignment
fragments, join fragments, the AND-joined WHERE clause when any predicate
exists, then trailing fragments; arguments are assignment arguments, then
predicate arguments, then trailing arguments, as the compositional form and
the concrete example show. -/
theorem c4_newupdate_rendering_and_argument_order :
    (∀ (table : DBTable) (opts : List QueryBuilderOption),
      NewUpdate table opts =
        ("UPDATE " ++ table ++ " SET"
           ++ renderSets table (applyOpts opts { Table := table }).sets
           ++ String.join (applyOpts opts { Table := table }).join
           ++ whereClause (applyOpts opts { Table := table }).where_
           ++ aggClause (applyOpts opts { Table := table }).aggregations,
         (applyOpts opts { Table := table }).setParams
           ++ (applyOpts opts { Table := table }).params
           ++ (applyOpts opts { Table := table }).aggregationParams)) ∧
    (∀ (table : DBTable) (ss : List (DBField × Val))
        (ws : List (DBField × DBOperation × Val)),
      NewUpdate table (ss.map set1 ++ ws.map where1) =
        ("UPDATE " ++ table ++ " SET"
           ++ renderSets table (ss.map (fun t => t.1))
           ++ whereClause (ws.map frag1),
         ss.map (fun t => t.2) ++ ws.map val1)) ∧
    NewUpdate "users" [Set "name" (Val.s "bla"), Where "users.id" Equal [Val.i 2]] =
      ("UPDATE users SET name = ? WHERE users.id = ?", [Val.s "bla", Val.i 2]) := by
  refine ⟨fun table opts => rfl, fun table ss ws => ?_, by decide⟩
  rw [newUpdate_eq, applyOpts_append, applyOpts_set1_map, applyOpts_where1_map]
  simp [String.join, aggClause, whereClause, List.append_assoc]
  rfl

theorem isPrefixOf_append_self : ∀ (l r : List Char), l.isPrefixOf (l ++ r) = true := by
  intro l
  induction l with
  | nil => intro r; simp [List.isPrefixOf]
  | cons c cs ih => intro r; simp [List.isPrefixOf, ih]

/-- If the pattern does not occur in the source, `strings.Replace` leaves the
source unchanged, whatever the fuel and replacement budget. -/
theorem replaceFuel_no_occurrence (old new : List Char) :
    ∀ (fuel : Nat) (s : List Char) (n : Nat),
      occursAux old s = false → replaceFuel fuel s old new n = s := by
  intro fuel
  induction fuel with
  | zero => intro s n _; rfl
  | succ fuel ih =>
    intro s n h
    cases n with
    | zero => rfl
    | succ n =>
      cases s with
      | nil => rfl
      | cons c rest =>
        have h1 : old.isPrefixOf (c :: rest) = false := by
          by_contra hc
          simp [occursAux, eq_true_of_ne_false hc] at h
        have h2 : occursAux old rest = false := by
          simp [occursAux, h1] at h
          simp [h]
        simp [replaceFuel, h1, ih rest (n + 1) h2]

theorem goReplace_no_occurrence (old f new : String) (n : Nat)
    (h : occursIn old f = false) : goReplace f old new n = f :=
  String.ext (replaceFuel_no_occurrence old.data new.data f.data.length f.data n h)

/-- One replacement step at the very front: when the pattern heads the source
and does not occur in the remainder, `strings.Replace` with an empty
replacement strips exactly that leading occurrence. -/
theorem replaceFuel_strip (o : Char) (os rest : List Char) (n : Nat)
    (h : occursAux (o :: os) rest = false) :
    replaceFuel ((o :: os) ++ rest).length ((o :: os) ++ rest) (o :: os) [] (n + 1) = rest := by
  have hc : (o :: os).isPrefixOf (o :: (os ++ rest)) = true :=
    isPrefixOf_append_self (o :: os) rest
  show replaceFuel ((os ++ rest).length + 1) (o :: (os ++ rest)) (o :: os) [] (n + 1) = rest
  simp only [replaceFuel, hc, List.isEmpty, Bool.not_false, Bool.and_self,
    if_true, List.length_cons, List.drop_succ_cons, List.nil_append]
  rw [List.drop_left]
  exact replaceFuel_no_occurrence (o :: os) [] (os ++ rest).length rest n h

theorem goReplace_strip_leading (table rest : String)
    (h : occursIn (table ++ ".") rest = false) :
    goReplace (table ++ "." ++ rest) (table ++ ".") "" 11 = rest := by
  apply String.ext
  have hd : (table ++ "." ++ rest).data = (table ++ ".").data ++ rest.data :=
    String.data_append (table ++ ".") rest
  rcases e : (table ++ ".").data with _ | ⟨o, os⟩
  · exfalso
    have := congrArg List.length e
    simp [String.data_append] at this
  · show replaceFuel (table ++ "." ++ rest).data.length
      (table ++ "." ++ rest).data (table ++ ".").data "".data 11 = rest.data
    rw [hd, e]
    have h' : occursAux (o :: os) rest.data = false := by
      have : occursIn (table ++ ".") rest = occursAux (o :: os) rest.data := by
        rw [occursIn, e]
      rw [← this, h]
    exact replaceFuel_strip o os rest.data 10 h'

theorem countQ_append (s t : String) : countQ (s ++ t) = countQ s + countQ t := by
  simp [countQ, String.data_append, List.count_append]

theorem countQ_frag1 (t : DBField × DBOperation × Val)
    (h1 : countQ t.1 = 0) (h2 : countQ t.2.1 = 0) : countQ (frag1 t) = 1 := by
  have : frag1 t = t.1 ++ " " ++ t.2.1 ++ " ?" := rfl
  rw [this, countQ_append, countQ_append, countQ_append, h1, h2]
  rfl

/-- An AND-joined list of one-value predicate fragments contains one `?` per
fragment, provided the field and operator names themselves contain none. -/
theorem countQ_joinSep_AND_frag1 :
    ∀ (ws : List (DBField × DBOperation × Val)),
      (∀ t ∈ ws, countQ t.1 = 0 ∧ countQ t.2.1 = 0) →
      countQ (joinSep " AND " (ws.map frag1)) = ws.length := by
  intro ws
  induction ws with
  | nil => intro _; rfl
  | cons t ts ih =>
    intro h
    have ht := h t (by simp)
    cases ts with
    | nil => simp [joinSep, countQ_frag1 t ht.1 ht.2]
    | cons u us =>
      have hts : ∀ x ∈ u :: us, countQ x.1 = 0 ∧ countQ x.2.1 = 0 :=
        fun x hx => h x (by simp [hx])
      have step : joinSep " AND " ((t :: u :: us).map frag1) =
          frag1 t ++ " AND " ++ joinSep " AND " ((u :: us).map frag1) := by
        simp [joinSep, String.append_assoc]
      rw [step, countQ_append, countQ_append, countQ_frag1 t ht.1 ht.2, ih hts]
      simp [countQ]
      omega

/-- C5 fails as stated: the code strips occurrences of `entity.` anywhere in
a field name (up to 11 of them), not only a leading prefix, so a field in
which `users.` occurs mid-name is altered even though it carries no such
prefix. -/
theorem c5_counterexample :
    NewInsert "users" ["a.users.b"] = "INSERT INTO users (a.b) VALUES (?)" ∧
    NewInsert "users" ["a.users.b"] ≠ "INSERT INTO users (a.users.b) VALUES (?)" := by
  exact ⟨by decide, by decide⟩

/-- C5 amended: insertion renders `INSERT INTO E (fields) VALUES (?, …, ?)`
with comma-space-joined fields and one `?` per field, where each field name
has up to 11 occurrences of `E.` removed anywhere in the name; when `E.`
occurs in a field only as a leading prefix — or not at all — this coincides
with stripping that prefix once, as in the concrete example. -/
theorem c5_amended_insert_rendering :
    (∀ (table : DBTable) (fields : List DBField),
      NewInsert table fields =
        "INSERT INTO " ++ (table ++ (" (" ++
          (joinSep ", " (fields.map fun w => goReplace w (table ++ ".") "" 11) ++
          (") VALUES (" ++
          (joinSep ", " (fields.map fun _ => "?") ++ ")")))))) ∧
    (∀ (table f : String), occursIn (table ++ ".") f = false →
      goReplace f (table ++ ".") "" 11 = f) ∧
    (∀ (table rest : String), occursIn (table ++ ".") rest = false →
      goReplace (table ++ "." ++ rest) (table ++ ".") "" 11 = rest) ∧
    NewInsert "users" ["name", "address", "status"] =
      "INSERT INTO users (name, address, status) VALUES (?, ?, ?)" := by
  refine ⟨fun table fields => ?_, fun table f h => goReplace_no_occurrence _ _ _ _ h,
    fun table rest h => goReplace_strip_leading table rest h, by decide⟩
  have h1 : NewInsert table fields =
      Insert ++ " " ++ table ++ " ("
        ++ joinSep ", " (fields.map fun w => goReplace w (table ++ ".") "" 11)
        ++ ")" ++ " VALUES ("
        ++ joinSep ", " (fields.map fun _ => "?") ++ ")" := rfl
  rw [h1]
  simp only [String.append_assoc]
  rw [append_merge (show Insert ++ " " = "INSERT INTO " from rfl)]
  rw [append_merge (show (")" : String) ++ " VALUES (" = ") VALUES (" from rfl)]

/-- C1 fails as stated: NewQuery and NewDelete return only the predicate
arguments, dropping trailing arguments, so the Limit(1)/OrderBy retrieval of
the claim renders one `?` placeholder yet returns no arguments (the repo's
own test pins the empty argument list), and a removal with Limit(1) behaves
the same way. -/
theorem c1_counterexample :
    NewQuery "users" [] [Limit 1, OrderBy "users.id" Desc] =
      ("SELECT * FROM users LIMIT ? ORDER BY users.id DESC", []) ∧
    countQ (NewQuery "users" [] [Limit 1, OrderBy "users.id" Desc]).1 = 1 ∧
    (NewQuery "users" [] [Limit 1, OrderBy "users.id" Desc]).2 ≠ [Val.i 1] ∧
    NewDelete "users" [Limit 1] = ("DELETE FROM users LIMIT ?", []) ∧
    countQ (NewDelete "users" [Limit 1]).1 = 1 := by
  exact ⟨by decide, by decide, by decide, by decide, by decide⟩

/-- C1 amended: NewQuery and NewDelete return exactly the accumulated
predicate arguments — trailing arguments are assembled but dropped — and
when every contributor is a one-value predicate (and no name contains `?`)
the placeholder count equals the returned argument count, aligned in call
order; the Limit(1)/OrderBy retrieval returns the empty argument list. -/
theorem c1_amended_returned_args :
    (∀ (table : DBTable) (fields : List DBField) (opts : List QueryBuilderOption),
      (NewQuery table fields opts).2 = (applyOpts opts { Table := table }).params ∧
      (NewDelete table opts).2 = (applyOpts opts { Table := table }).params) ∧
    (∀ (table : DBTable) (ws : List (DBField × DBOperation × Val)),
      countQ table = 0 →
      (∀ t ∈ ws, countQ t.1 = 0 ∧ countQ t.2.1 = 0) →
      countQ (NewQuery table [] (ws.map where1)).1 = ws.length ∧
      (NewQuery table [] (ws.map where1)).2 = ws.map val1 ∧
      countQ (NewDelete table (ws.map where1)).1 = ws.length ∧
      (NewDelete table (ws.map where1)).2 = ws.map val1) ∧
    (NewQuery "users" [] [Limit 1, OrderBy "users.id" Desc]).2 = [] := by
  refine ⟨fun table fields opts => ⟨rfl, rfl⟩, fun table ws h0 h => ?_, by decide⟩
  have hq : applyOpts (ws.map where1) { Table := table } =
      { Table := table, where_ := ws.map frag1, params := ws.map val1 } := by
    simp [applyOpts_where1_map]
  have hqtext : (NewQuery table [] (ws.map where1)).1 =
      "SELECT * FROM " ++ table ++ String.join ([] : List String)
        ++ whereClause (ws.map frag1) ++ aggClause [] := by
    have : (NewQuery table [] (ws.map where1)).1 =
        "SELECT * FROM " ++ table
          ++ String.join (applyOpts (ws.map where1) { Table := table }).join
          ++ whereClause (applyOpts (ws.map where1) { Table := table }).where_
          ++ aggClause (applyOpts (ws.map where1) { Table := table }).aggregations := rfl
    rw [this, hq]
  have hdtext : (NewDelete table (ws.map where1)).1 =
      "DELETE FROM " ++ table ++ String.join ([] : List String)
        ++ whereClause (ws.map frag1) ++ aggClause [] := by
    have : (NewDelete table (ws.map where1)).1 =
        "DELETE FROM " ++ table
          ++ String.join (applyOpts (ws.map where1) { Table := table }).join
          ++ whereClause (applyOpts (ws.map where1) { Table := table }).where_
          ++ aggClause (applyOpts (ws.map where1) { Table := table }).aggregations := rfl
    rw [this, hq]
  have hwc : countQ (whereClause (ws.map frag1)) = ws.length := by
    cases ws with
    | nil => rfl
    | cons t ts =>
      have : whereClause ((t :: ts).map frag1) =
          " WHERE " ++ joinSep " AND " ((t :: ts).map frag1) := rfl
      rw [this, countQ_append, countQ_joinSep_AND_frag1 (t :: ts) h]
      have e : countQ " WHERE " = 0 := rfl
      omega
  refine ⟨?_, ?_, ?_, ?_⟩
  · rw [hqtext]
    rw [countQ_append, countQ_append, countQ_append, countQ_append, hwc, h0]
    have e1 : countQ "SELECT * FROM " = 0 := rfl
    have e2 : countQ (String.join []) = 0 := rfl
    have e3 : countQ (aggClause []) = 0 := rfl
    omega
  · have : (NewQuery table [] (ws.map where1)).2 =
        (applyOpts (ws.map where1) { Table := table }).params := rfl
    rw [this, hq]
  · rw [hdtext]
    rw [countQ_append, countQ_append, countQ_append, countQ_append, hwc, h0]
    have e1 : countQ "DELETE FROM " = 0 := rfl
    have e2 : countQ (String.join []) = 0 := rfl
    have e3 : countQ (aggClause []) = 0 := rfl
    omega
  · have : (NewDelete table (ws.map where1)).2 =
        (applyOpts (ws.map where1) { Table := table }).params := rfl
    rw [this, hq]

/-- Witness for the amended C1 at a concrete one-predicate query: one
placeholder, one returned argument, for both retrieval and removal. -/
theorem c1_amended_returned_args_witness :
    countQ (NewQuery "users" [] ([("users.id", Equal, Val.i 7)].map where1)).1 = 1 ∧
    (NewQuery "users" [] ([("users.id", Equal, Val.i 7)].map where1)).2 = [Val.i 7] ∧
    countQ (NewDelete "users" ([("users.id", Equal, Val.i 7)].map where1)).1 = 1 ∧
    (NewDelete "users" ([("users.id", Equal, Val.i 7)].map where1)).2 = [Val.i 7] := by
  have h := c1_amended_returned_args.2.1 "users" [("users.id", Equal, Val.i 7)]
    (by decide) (by decide)
  exact ⟨h.1, h.2.1.trans (by decide), h.2.2.1, h.2.2.2.trans (by decide)⟩

/-- Witness for the amended C5: stripping leaves a prefix-free field alone
and removes exactly the leading `users.` of a qualified field. -/
theorem c5_amended_insert_rendering_witness :
    goReplace "name" ("users" ++ ".") "" 11 = "name" ∧
    goReplace ("users" ++ "." ++ "id") ("users" ++ ".") "" 11 = "id" := by
  exact ⟨c5_amended_insert_rendering.2.1 "users" "name" (by decide),
    c5_amended_insert_rendering.2.2.1 "users" "id" (by decide)⟩

end Querier
